import Mathlib

/-!
Verification of the order-management application (Flask web app `app.py`
over the Google-Sheets adapter `sheets.py`).

The spreadsheet is modelled as a list of rows, each row a list of cell
strings (the values-API representation: a short row stands for a row whose
trailing cells are blank).  The two store primitives used by the code,
`values().get` and `values().update`, are modelled by `valuesGet` and
`valuesUpdate`; an `ErrCfg` injects `HttpError` failures (the only
exception the source catches), and every operation also returns the trace
of store calls it attempted, so that batching and retry behaviour can be
stated.

Status strings are kept exactly as in the source; the spec's English names
correspond as: placed = "оформлен", awaiting supply = "ожидает поставки",
assembly = "сборка", delivery = "доставка", completed = "завершён".
-/

namespace AgentCrm

/-- A spreadsheet row: the list of its cell values, possibly shorter than
the 20-column layout when trailing cells are blank. -/
abbrev Row := List String

/-- The `Orders` sheet: a list of rows. -/
abbrev Table := List Row

/-- Error injection for the backing store: whether `values().get` calls
raise `HttpError`, and whether `values().update` calls do. -/
structure ErrCfg where
  getFails : Bool
  updateFails : Bool
  deriving DecidableEq, Repr

/-- The configuration in which no store call fails. -/
def noErr : ErrCfg := ⟨false, false⟩

/-- The two ranges the source reads: `Orders!A:A` and `Orders!A:T`. -/
inductive SRange
  | colA
  | colAT
  deriving DecidableEq, Repr

/-- One attempted store call: a read of a range, or a range update
starting at 1-based row `start1` with the given row values. -/
inductive Call
  | get (r : SRange)
  | upd (start1 : Nat) (values : List Row)
  deriving DecidableEq, Repr

/-- The data returned by `values().get`: column A truncates each row to
its first cell, `A:T` truncates to the 20 columns A..T. -/
def readRange (t : Table) : SRange → List Row
  | .colA => t.map (fun r => r.take 1)
  | .colAT => t.map (fun r => r.take 20)

/-- Writing `new` over `old` in one row: cells of the written range are
replaced, cells beyond the written values keep their old contents. -/
def overwriteRow (old new : Row) : Row := new ++ old.drop new.length

/-- Writing a block of rows into the table starting at 0-based row
`start`: existing rows are overwritten cell-wise, rows beyond the current
end are appended (blank rows padding a gap if needed). -/
def writeRows : Nat → List Row → Table → Table
  | _, [], t => t
  | 0, v :: vs, [] => overwriteRow [] v :: writeRows 0 vs []
  | 0, v :: vs, r :: t => overwriteRow r v :: writeRows 0 vs t
  | s + 1, vs, [] => [] :: writeRows s vs []
  | s + 1, vs, r :: t => r :: writeRows s vs t
termination_by s vs t => s + vs.length + t.length

/-- `service.spreadsheets().values().get(...)`: raises `HttpError` when
the store is failing, otherwise returns the requested range. -/
def valuesGet (cfg : ErrCfg) (t : Table) (r : SRange) : Except String (List Row) :=
  if cfg.getFails then .error "HttpError" else .ok (readRange t r)

/-- `service.spreadsheets().values().update(...)` with a range whose first
row is the 1-based `start1`: raises `HttpError` when the store is failing,
otherwise writes the rows. -/
def valuesUpdate (cfg : ErrCfg) (t : Table) (start1 : Nat) (vs : List Row) :
    Except String Table :=
  if cfg.updateFails then .error "HttpError" else .ok (writeRows (start1 - 1) vs t)

/-- The order-level fields of `order_data` as built by `new_order` in
`app.py` (all keys are always present, so the dict is a record). -/
structure OrderData where
  id : String
  status : String
  date : String
  channel : String
  customer_name : String
  phone : String
  messenger : String
  address : String
  logistics : String
  percent : String
  extra_costs : String
  profit : String
  accruals : String
  deriving DecidableEq, Repr

/-- One item dict as built by `new_order` in `app.py`. -/
structure Item where
  sku : String
  supplier : String
  photo : String
  quantity : String
  order_sum : String
  purchase_sum : String
  comment : String
  deriving DecidableEq, Repr

/-- The fixed 20-column row layout built inside `append_order`
(`sheets.py` lines 66-87). -/
def rowOf (o : OrderData) (it : Item) : Row :=
  [o.id, o.status, o.date, it.sku, o.channel, it.supplier, it.photo,
   it.quantity, it.order_sum, it.purchase_sum, o.percent, o.extra_costs,
   o.profit, o.accruals, o.customer_name, o.phone, o.messenger, o.address,
   o.logistics, it.comment]

/-- `sheets.append_order`: builds one row per item, reads column A to find
the next free 1-based row, and writes all new rows in one contiguous range
starting there.  `HttpError` on either store call is caught: the function
returns with the table unchanged. -/
def append_order (cfg : ErrCfg) (t : Table) (order_data : OrderData)
    (items : List Item) : Table × List Call :=
  let values := items.map (rowOf order_data)
  match valuesGet cfg t .colA with
  | .error _ => (t, [.get .colA])
  | .ok existing =>
      let next_row := existing.length + 1
      match valuesUpdate cfg t next_row values with
      | .error _ => (t, [.get .colA, .upd next_row values])
      | .ok t2 => (t2, [.get .colA, .upd next_row values])

/-- `row + [""] padding up to length n` — the `while len(row) < 2:
row.append("")` loop in `update_status`, generalised. -/
def padTo (r : Row) (n : Nat) : Row := r ++ List.replicate (n - r.length) ""

/-- Pad the row to at least two cells and set the status cell (index 1),
as `update_status` does before writing a matching row back. -/
def setStatusCell (r : Row) (ns : String) : Row := (padTo r 2).set 1 ns

/-- The `for idx, row in enumerate(rows, start=1)` loop of
`update_status`: collect `(idx, modified row)` for every row whose first
cell equals `order_id` (empty rows never match). -/
def collectUpdates (order_id new_status : String) : Nat → List Row → List (Nat × Row)
  | _, [] => []
  | idx, row :: rest =>
      if row.head? = some order_id then
        (idx, setStatusCell row new_status) ::
          collectUpdates order_id new_status (idx + 1) rest
      else collectUpdates order_id new_status (idx + 1) rest

/-- The write-back loop of `update_status`: one `values().update` per
collected row; a raised `HttpError` aborts the loop (it is caught by the
surrounding handler, leaving the remaining writes unattempted). -/
def runUpdates (cfg : ErrCfg) : Table → List (Nat × Row) → Table × List Call
  | t, [] => (t, [])
  | t, (idx, row) :: rest =>
      match valuesUpdate cfg t idx [row] with
      | .error _ => (t, [.upd idx [row]])
      | .ok t2 =>
          let res := runUpdates cfg t2 rest
          (res.1, .upd idx [row] :: res.2)

/-- `sheets.update_status`: reads `Orders!A:T`, rewrites the status cell
of every row whose identifier cell equals `order_id`, and writes each
affected row back in its own range update.  `HttpError` is caught. -/
def update_status (cfg : ErrCfg) (t : Table) (order_id new_status : String) :
    Table × List Call :=
  match valuesGet cfg t .colAT with
  | .error _ => (t, [.get .colAT])
  | .ok rows =>
      let res := runUpdates cfg t (collectUpdates order_id new_status 1 rows)
      (res.1, .get .colAT :: res.2)

/-- One aggregated item summary, as built by `get_orders`. -/
structure ItemAgg where
  sku : String
  quantity : String
  order_sum : String
  purchase_sum : String
  supplier : String
  deriving DecidableEq, Repr

/-- One aggregated order record, as built by `get_orders` (insertion
order of the Python dict is the list order). -/
structure OrderAgg where
  id : String
  status : String
  date : String
  customer_name : String
  items : List ItemAgg
  deriving DecidableEq, Repr

/-- The item summary `get_orders` appends for one row. -/
def mkItemAgg (row : Row) : ItemAgg :=
  { sku := row.getD 3 "", quantity := row.getD 7 "", order_sum := row.getD 8 ""
    purchase_sum := row.getD 9 "", supplier := row.getD 5 "" }

/-- The fresh order record `get_orders` creates on first sight of an
identifier. -/
def mkOrderAgg (row : Row) : OrderAgg :=
  { id := row.getD 0 "", status := row.getD 1 "", date := row.getD 2 ""
    customer_name := row.getD 14 "", items := [] }

/-- `orders[oid]["items"].append(item)`: append the item to the record
with the given identifier. -/
def pushItem (oid : String) (it : ItemAgg) (acc : List OrderAgg) : List OrderAgg :=
  acc.map (fun o => if o.id == oid then { o with items := o.items ++ [it] } else o)

/-- `oid in orders`. -/
def hasOrder (acc : List OrderAgg) (oid : String) : Bool :=
  acc.any (fun o => o.id == oid)

/-- Processing one non-skipped row in `get_orders`: create the order
record if its identifier is new, then append the row's item summary. -/
def insertRow (acc : List OrderAgg) (row : Row) : List OrderAgg :=
  let oid := row.getD 0 ""
  let base := if hasOrder acc oid then acc else acc ++ [mkOrderAgg row]
  pushItem oid (mkItemAgg row) base

/-- The `if status and st != status: continue` test of `get_orders`: a
`None` or empty filter never skips, otherwise rows whose status cell
differs from the filter are skipped. -/
def filterSkips (status : Option String) (st : String) : Bool :=
  match status with
  | none => false
  | some s => if s = "" then false else st != s

/-- The aggregation loop of `get_orders` over the rows read from
`Orders!A:T`, with the accumulator in insertion order. -/
def aggregate (status : Option String) : List Row → List OrderAgg → List OrderAgg
  | [], acc => acc
  | row :: rest, acc =>
      if row.isEmpty || row.length < 2 then aggregate status rest acc
      else if filterSkips status (row.getD 1 "") then aggregate status rest acc
      else aggregate status rest (insertRow acc row)

/-- `sheets.get_orders`: reads `Orders!A:T` and aggregates rows into one
record per order identifier; on `HttpError` returns the empty list. -/
def get_orders (cfg : ErrCfg) (t : Table) (status : Option String) :
    List OrderAgg × List Call :=
  match valuesGet cfg t .colAT with
  | .error _ => ([], [.get .colAT])
  | .ok rows => (aggregate status rows [], [.get .colAT])

/-- The `ROLE_MAP` lookup table of `app.py`: uid to role. -/
abbrev RoleMap := List (String × String)

/-- The concrete `ROLE_MAP` of the source. -/
def ROLE_MAP : RoleMap := [("379185153", "admin")]

/-- `get_role(uid)`: dictionary lookup. -/
def get_role (m : RoleMap) (uid : String) : Option String :=
  (m.find? (fun p => p.1 == uid)).map (·.2)

/-- `role = get_role(uid) if uid else None`: an absent or empty uid query
parameter yields no role. -/
def roleOf (m : RoleMap) (uid : Option String) : Option String :=
  match uid with
  | none => none
  | some u => if u = "" then none else get_role m u

/-- The picker row of the `allowed` transition dict in `set_status`. -/
def pickerTransitions (cur : String) : Option String :=
  if cur = "оформлен" then some "ожидает поставки"
  else if cur = "ожидает поставки" then some "сборка"
  else none

/-- The courier row of the `allowed` transition dict in `set_status`. -/
def courierTransitions (cur : String) : Option String :=
  if cur = "сборка" then some "доставка"
  else if cur = "доставка" then some "завершён"
  else none

/-- `allowed[role][cur]` for a non-admin role: the single permitted target
status, if any. -/
def roleTransitions (role cur : String) : Option String :=
  if role = "picker" then pickerTransitions cur
  else if role = "courier" then courierTransitions cur
  else none

/-- The outcome of a request handler, as visible to the client. -/
inductive Response
  | forbidden
  | notFound
  | redirectOrders (status : String)
  | redirectIndex
  | newOrderForm
  deriving DecidableEq, Repr

/-- The `/update_status/<order_id>/<new_status>` handler `set_status` of
`app.py`, returning the response together with the resulting table.
Roles outside the `allowed` dict get 403; a non-admin role looks the order
up in `sheets.get_orders()` (404 when absent) and must match its role's
transition table exactly (403 otherwise); then `sheets.update_status` runs
and the response redirects to the listing for the new status. -/
def set_status (m : RoleMap) (cfg : ErrCfg) (t : Table) (uid : Option String)
    (order_id new_status : String) : Response × Table :=
  let role := roleOf m uid
  if role = some "picker" ∨ role = some "courier" ∨ role = some "admin" then
    if role = some "admin" then
      (.redirectOrders new_status, (update_status cfg t order_id new_status).1)
    else
      match (get_orders cfg t none).1.find? (fun o => o.id == order_id) with
      | none => (.notFound, t)
      | some order_info =>
          let cur_status := order_info.status
          let target :=
            match role with
            | some r => roleTransitions r cur_status
            | none => none
          if target = some new_status then
            (.redirectOrders new_status, (update_status cfg t order_id new_status).1)
          else (.forbidden, t)
  else (.forbidden, t)

/-- `request.form`: a finite partial map from field name to value;
Flask's `form.get` returns `None` for an absent field. -/
abbrev Form := String → Option String

/-- A form value coerced to a string; an absent field reads as empty
(Flask returns `None`, which the source stores and later writes as an
empty cell). -/
def formGet (f : Form) (k : String) : String := (f k).getD ""

/-- The indexed item field name `item_{i}_{suffix}`. -/
def itemKey (i : Nat) (suffix : String) : String :=
  "item_" ++ toString i ++ "_" ++ suffix

/-- The item dict built for index `i` once its SKU field was found
non-empty. -/
def itemAt (f : Form) (i : Nat) (sku : String) : Item :=
  { sku := sku
    supplier := formGet f (itemKey i "supplier")
    photo := formGet f (itemKey i "photo")
    quantity := formGet f (itemKey i "quantity")
    order_sum := formGet f (itemKey i "order_sum")
    purchase_sum := formGet f (itemKey i "purchase_sum")
    comment := formGet f (itemKey i "comment") }

/-- The `while True` item-collection loop of `new_order`, starting at
index `i`: it stops at the first index whose SKU field is absent or
empty.  The loop terminates because a form holds finitely many fields;
`fuel` bounds the number of iterations and any bound past the stopping
index gives the loop's result. -/
def parseItems (f : Form) : Nat → Nat → List Item
  | 0, _ => []
  | fuel + 1, i =>
      match f (itemKey i "sku") with
      | none => []
      | some sku =>
          if sku = "" then []
          else itemAt f i sku :: parseItems f fuel (i + 1)

/-- HTTP request method of the `/new_order` endpoint. -/
inductive Method
  | get
  | post
  deriving DecidableEq, Repr

/-- The `/new_order` handler of `app.py`.  `nowTs` is the timestamp
string used as default identifier, `nowDate` the formatted current date;
`fuel` bounds the item loop (any bound past the stopping index gives the
loop's result).  Roles outside {manager, admin} get 403 before the method
is examined; a POST builds the order (status forced to "оформлен") and
appends it, then redirects to the index; a GET renders the form. -/
def new_order (m : RoleMap) (cfg : ErrCfg) (t : Table) (uid : Option String)
    (method : Method) (form : Form) (fuel : Nat) (nowTs nowDate : String) :
    Response × Table :=
  let role := roleOf m uid
  if role = some "manager" ∨ role = some "admin" then
    match method with
    | .post =>
        let rawId := formGet form "order_id"
        let rawDate := formGet form "date"
        let order_data : OrderData :=
          { id := if rawId = "" then nowTs else rawId
            status := "оформлен"
            date := if rawDate = "" then nowDate else rawDate
            channel := formGet form "channel"
            customer_name := formGet form "customer_name"
            phone := formGet form "phone"
            messenger := formGet form "messenger"
            address := formGet form "address"
            logistics := formGet form "logistics"
            percent := "", extra_costs := "", profit := "", accruals := "" }
        let items := parseItems form fuel 0
        (.redirectIndex, (append_order cfg t order_data items).1)
    | .get => (.newOrderForm, t)
  else (.forbidden, t)

/-! ## Basic facts about the write primitive -/

theorem writeRows_zero_nil (vs : List Row) : writeRows 0 vs [] = vs := by
  induction vs with
  | nil => simp [writeRows]
  | cons v vs ih => simp [writeRows, overwriteRow, ih]

theorem writeRows_length_append (t : Table) (vs : List Row) :
    writeRows t.length vs t = t ++ vs := by
  induction t with
  | nil => simpa using writeRows_zero_nil vs
  | cons r t ih =>
      cases vs with
      | nil => simp [writeRows]
      | cons v vs => simp [writeRows, ih]

theorem writeRows_middle (pre : Table) (r v : Row) (rest : Table) :
    writeRows pre.length [v] (pre ++ r :: rest) = pre ++ overwriteRow r v :: rest := by
  induction pre with
  | nil => simp [writeRows]
  | cons p pre ih => simp [writeRows, ih]

/-! ## C2: appending an order -/

/-- The thirteen order-level cells of a row (columns A, B, C, E, K..S). -/
def orderFields (r : Row) : List String :=
  [r.getD 0 "", r.getD 1 "", r.getD 2 "", r.getD 4 "", r.getD 10 "",
   r.getD 11 "", r.getD 12 "", r.getD 13 "", r.getD 14 "", r.getD 15 "",
   r.getD 16 "", r.getD 17 "", r.getD 18 ""]

/-- The seven item-level cells of a row (columns D, F, G, H, I, J, T). -/
def itemFields (r : Row) : List String :=
  [r.getD 3 "", r.getD 5 "", r.getD 6 "", r.getD 7 "", r.getD 8 "",
   r.getD 9 "", r.getD 19 ""]

theorem append_order_noErr (t : Table) (o : OrderData) (items : List Item) :
    append_order noErr t o items =
      (t ++ items.map (rowOf o),
       [Call.get .colA, Call.upd (t.length + 1) (items.map (rowOf o))]) := by
  simp [append_order, valuesGet, valuesUpdate, noErr, readRange,
    writeRows_length_append]

/-- C2: appending an order with N items writes exactly N rows in the
20-column layout, in one contiguous block starting one past the current
length of the identifier column; every written row carries the same
order-level fields and the rows differ only in the item fields. -/
theorem claim_c2_append_shape (t : Table) (o : OrderData) (items : List Item) :
    (append_order noErr t o items).1 = t ++ items.map (rowOf o) ∧
    (items.map (rowOf o)).length = items.length ∧
    (∀ r ∈ items.map (rowOf o), r.length = 20) ∧
    (∀ i, ((append_order noErr t o items).1)[t.length + i]? =
      (items.map (rowOf o))[i]?) ∧
    (∀ it ∈ items, orderFields (rowOf o it) =
      [o.id, o.status, o.date, o.channel, o.percent, o.extra_costs, o.profit,
       o.accruals, o.customer_name, o.phone, o.messenger, o.address,
       o.logistics]) ∧
    (∀ it ∈ items, itemFields (rowOf o it) =
      [it.sku, it.supplier, it.photo, it.quantity, it.order_sum,
       it.purchase_sum, it.comment]) := by
  refine ⟨by simp [append_order_noErr], by simp, ?_, ?_, ?_, ?_⟩
  · intro r hr
    rcases List.mem_map.mp hr with ⟨it, -, rfl⟩
    rfl
  · intro i
    rw [append_order_noErr]
    simp [List.getElem?_append_right]
  · intro it _
    rfl
  · intro it _
    rfl

/-- Concrete order used by witnesses. -/
def sampleOrder : OrderData :=
  { id := "1001", status := "оформлен", date := "2026-01-01 10:00"
    channel := "Телеграм", customer_name := "Иванов", phone := "+70000000000"
    messenger := "tg", address := "Москва", logistics := "СДЕК"
    percent := "", extra_costs := "", profit := "", accruals := "" }

/-- Concrete item used by witnesses. -/
def sampleItem : Item :=
  { sku := "SKU1", supplier := "Мой склад", photo := "p", quantity := "2"
    order_sum := "100", purchase_sum := "80", comment := "ok" }

/-- Witness for C2 at a concrete input. -/
theorem claim_c2_append_shape_witness :
    (append_order noErr [["x"]] sampleOrder [sampleItem]).1 =
      [["x"], rowOf sampleOrder sampleItem] ∧
    orderFields (rowOf sampleOrder sampleItem) =
      ["1001", "оформлен", "2026-01-01 10:00", "Телеграм", "", "", "", "",
       "Иванов", "+70000000000", "tg", "Москва", "СДЕК"] := by
  exact ⟨(claim_c2_append_shape [["x"]] sampleOrder [sampleItem]).1,
    (claim_c2_append_shape [["x"]] sampleOrder [sampleItem]).2.2.2.2.1 sampleItem
      (by simp)⟩

/-! ## C3: update_status rewrites exactly the status cells -/

/-- The per-row effect of `update_status`: a row whose identifier cell
matches gets its (padded, 20-column-truncated) copy with the status cell
replaced written over it; other rows are untouched. -/
def statusRewrite (oid ns : String) (row : Row) : Row :=
  if row.head? = some oid then
    overwriteRow row (setStatusCell (row.take 20) ns)
  else row

theorem take_append_drop_length {α : Type} (l : List α) (n : Nat) :
    l.take n ++ l.drop ((l.take n).length) = l := by
  rw [List.length_take]
  rcases le_total n l.length with h | h
  · rw [Nat.min_eq_left h, List.take_append_drop]
  · rw [Nat.min_eq_right h, List.take_of_length_le h, List.drop_length,
      List.append_nil]

theorem head?_take20 (r : Row) : (r.take 20).head? = r.head? := by
  cases r <;> rfl

theorem setStatusCell_cons_cons (ns c d : String) (rest : List String) :
    setStatusCell (c :: d :: rest) ns = c :: ns :: rest := by
  simp [setStatusCell, padTo]

theorem statusRewrite_one (oid ns : String) :
    statusRewrite oid ns [oid] = [oid, ns] := by
  unfold statusRewrite
  rw [if_pos (show ([oid] : Row).head? = some oid from rfl)]
  rfl

theorem statusRewrite_cons2 (oid ns d : String) (rest : List String) :
    statusRewrite oid ns (oid :: d :: rest) = oid :: ns :: rest := by
  unfold statusRewrite
  rw [if_pos (show (oid :: d :: rest : Row).head? = some oid from rfl)]
  have ht : (oid :: d :: rest).take 20 = oid :: d :: rest.take 18 := rfl
  rw [ht, setStatusCell_cons_cons]
  simp only [overwriteRow, List.length_cons, List.cons_append,
    List.drop_succ_cons]
  rw [take_append_drop_length]

theorem statusRewrite_of_not_head (oid ns : String) (row : Row)
    (h : ¬row.head? = some oid) : statusRewrite oid ns row = row := by
  simp [statusRewrite, h]

theorem runUpdates_collect (oid ns : String) (rest : Table) :
    ∀ pre : Table,
      (runUpdates noErr (pre ++ rest)
          (collectUpdates oid ns (pre.length + 1)
            (rest.map (fun r => r.take 20)))).1 =
        pre ++ rest.map (statusRewrite oid ns) := by
  induction rest with
  | nil => intro pre; simp [collectUpdates, runUpdates]
  | cons r rs ih =>
      intro pre
      by_cases h : r.head? = some oid
      · have hh : (r.take 20).head? = some oid := by rw [head?_take20]; exact h
        rw [List.map_cons, collectUpdates, if_pos hh]
        rw [runUpdates]
        have hupd : valuesUpdate noErr (pre ++ r :: rs) (pre.length + 1)
            [setStatusCell (r.take 20) ns] =
            .ok (pre ++ overwriteRow r (setStatusCell (r.take 20) ns) :: rs) := by
          simp [valuesUpdate, noErr, writeRows_middle]
        rw [hupd]
        have hre : pre ++ overwriteRow r (setStatusCell (r.take 20) ns) :: rs =
            (pre ++ [overwriteRow r (setStatusCell (r.take 20) ns)]) ++ rs := by
          simp
        have hlen : pre.length + 1 + 1 =
            (pre ++ [overwriteRow r (setStatusCell (r.take 20) ns)]).length + 1 := by
          simp
        simp only [hre, hlen, ih]
        have hf : statusRewrite oid ns r =
            overwriteRow r (setStatusCell (r.take 20) ns) := by
          unfold statusRewrite; rw [if_pos h]
        simp [hf]
      · have hh : ¬(r.take 20).head? = some oid := by rw [head?_take20]; exact h
        rw [List.map_cons, collectUpdates, if_neg hh]
        have hre : pre ++ r :: rs = (pre ++ [r]) ++ rs := by simp
        have hlen : pre.length + 1 + 1 = (pre ++ [r]).length + 1 := by simp
        rw [hre, hlen, ih]
        simp [List.map_cons, statusRewrite_of_not_head oid ns r h]

theorem update_status_noErr (t : Table) (oid ns : String) :
    (update_status noErr t oid ns).1 = t.map (statusRewrite oid ns) := by
  have h := runUpdates_collect oid ns t []
  simpa [update_status, valuesGet, noErr, readRange] using h

theorem runUpdates_trace_ok (cfg : ErrCfg) (hu : cfg.updateFails = false)
    (us : List (Nat × Row)) :
    ∀ t : Table, (runUpdates cfg t us).2 =
      us.map (fun p => Call.upd p.1 [p.2]) := by
  induction us with
  | nil => intro t; simp [runUpdates]
  | cons u us ih =>
      intro t
      cases u with
      | mk i r => simp [runUpdates, valuesUpdate, hu, ih]

theorem update_status_trace_noErr (t : Table) (oid ns : String) :
    (update_status noErr t oid ns).2 =
      Call.get .colAT ::
        (collectUpdates oid ns 1 (t.map (fun r => r.take 20))).map
          (fun p => Call.upd p.1 [p.2]) := by
  have h := runUpdates_trace_ok noErr rfl
    (collectUpdates oid ns 1 (t.map (fun r => r.take 20))) t
  simpa [update_status, valuesGet, noErr, readRange] using h

theorem collectUpdates_length (oid ns : String) (rows : List Row) :
    ∀ k : Nat, (collectUpdates oid ns k rows).length =
      rows.countP (fun r => r.head? == some oid) := by
  induction rows with
  | nil => intro k; simp [collectUpdates]
  | cons r rs ih =>
      intro k
      by_cases h : r.head? = some oid <;>
        simp [collectUpdates, h, ih, List.countP_cons]

/-- Whether a store call is a range update. -/
def isUpd : Call → Bool
  | .upd _ _ => true
  | .get _ => false

/-- Whether a store call is a range read. -/
def isGet : Call → Bool
  | .get _ => true
  | .upd _ _ => false

theorem statusRewrite_cells (oid ns : String) (row : Row)
    (h : row.head? = some oid) :
    (statusRewrite oid ns row)[1]? = some ns ∧
    ∀ j, j ≠ 1 → (statusRewrite oid ns row)[j]? = row[j]? := by
  cases row with
  | nil => simp at h
  | cons c rest =>
      have hc : c = oid := by simpa using h
      subst hc
      cases rest with
      | nil =>
          rw [statusRewrite_one]
          refine ⟨by simp, ?_⟩
          intro j hj
          match j with
          | 0 => simp
          | 1 => exact absurd rfl hj
          | j + 2 => simp
      | cons d rest =>
          rw [statusRewrite_cons2]
          refine ⟨by simp, ?_⟩
          intro j hj
          match j with
          | 0 => simp
          | 1 => exact absurd rfl hj
          | j + 2 => simp

/-- C3: for every table state without store errors, `update_status`
rewrites the status cell (index 1) of every row whose identifier cell
equals the order identifier, leaves every other cell of every row
unchanged, leaves non-matching rows untouched, afterwards all rows
carrying that identifier have the new status, and the write-back issues
exactly one range update per matching row, each carrying a single row. -/
theorem claim_c3_update_rewrites (t : Table) (oid ns : String) :
    ((update_status noErr t oid ns).1).length = t.length ∧
    (∀ i, i < t.length →
      ((t.getD i []).head? = some oid →
        ((update_status noErr t oid ns).1.getD i [])[1]? = some ns ∧
        ∀ j, j ≠ 1 →
          ((update_status noErr t oid ns).1.getD i [])[j]? = (t.getD i [])[j]?) ∧
      (¬(t.getD i []).head? = some oid →
        (update_status noErr t oid ns).1.getD i [] = t.getD i [])) ∧
    (∀ r ∈ (update_status noErr t oid ns).1,
      r.head? = some oid → r[1]? = some ns) ∧
    ((update_status noErr t oid ns).2.countP isUpd =
      t.countP (fun r => r.head? == some oid)) ∧
    (∀ c ∈ (update_status noErr t oid ns).2,
      isUpd c = true → ∃ i r, c = Call.upd i [r]) := by
  refine ⟨?_, ?_, ?_, ?_, ?_⟩
  · rw [update_status_noErr]; simp
  · intro i hi
    have hmap : (update_status noErr t oid ns).1.getD i [] =
        statusRewrite oid ns (t.getD i []) := by
      rw [update_status_noErr, List.getD_eq_getElem?_getD,
        List.getD_eq_getElem?_getD, List.getElem?_map,
        List.getElem?_eq_getElem hi]
      simp
    constructor
    · intro hmatch
      rw [hmap]
      exact statusRewrite_cells oid ns (t.getD i []) hmatch
    · intro hnot
      rw [hmap, statusRewrite_of_not_head oid ns _ hnot]
  · intro r hr hhead
    rw [update_status_noErr] at hr
    rcases List.mem_map.mp hr with ⟨row, _, rfl⟩
    by_cases h : row.head? = some oid
    · exact (statusRewrite_cells oid ns row h).1
    · rw [statusRewrite_of_not_head oid ns row h] at hhead ⊢
      exact absurd hhead h
  · rw [update_status_trace_noErr, List.countP_cons]
    have hg : isUpd (Call.get .colAT) = false := rfl
    rw [hg]
    simp only [List.countP_map, if_false]
    have h1 : (isUpd ∘ fun p : Nat × Row => Call.upd p.1 [p.2]) =
        fun _ => true := by
      funext p; rfl
    rw [h1, List.countP_true, collectUpdates_length, List.countP_map]
    apply List.countP_congr
    intro r _
    simp [Function.comp, head?_take20]
  · intro c hc hupd
    rw [update_status_trace_noErr] at hc
    rcases List.mem_cons.mp hc with hc | hc
    · subst hc; exact absurd hupd (by simp [isUpd])
    · rcases List.mem_map.mp hc with ⟨p, _, rfl⟩
      exact ⟨p.1, p.2, rfl⟩

/-- Witness for C3 on a concrete three-row table: the matching rows (an
ordinary one and a one-cell one) get status "n", the non-matching row is
untouched. -/
theorem claim_c3_update_rewrites_witness :
    ((update_status noErr [["A", "s", "x"], ["B", "s"], ["A"]] "A" "n").1.getD
        0 [])[1]? = some "n" ∧
    (update_status noErr [["A", "s", "x"], ["B", "s"], ["A"]] "A" "n").1.getD
        1 [] = ["B", "s"] := by
  have h := (claim_c3_update_rewrites [["A", "s", "x"], ["B", "s"], ["A"]]
    "A" "n").2.1
  exact ⟨((h 0 (by decide)).1 (by decide)).1, (h 1 (by decide)).2 (by decide)⟩

/-! ## C8: store failures are swallowed -/

theorem runUpdates_updateFails (t : Table) (us : List (Nat × Row)) :
    (runUpdates ⟨false, true⟩ t us).1 = t ∧
    (runUpdates ⟨false, true⟩ t us).2.countP isUpd ≤ 1 ∧
    (runUpdates ⟨false, true⟩ t us).2.countP isGet = 0 := by
  cases us with
  | nil => simp [runUpdates]
  | cons u us =>
      cases u with
      | mk i r => simp [runUpdates, valuesUpdate, isUpd, isGet, List.countP_cons]

/-- C8: when the backing store raises on reads or on writes, none of the
three operations lets the error escape: `append_order` and
`update_status` return with the table unchanged, `get_orders` with a
failing read returns the empty list, and each operation attempts each
store call at most once (no retry). -/
theorem claim_c8_store_failures (cfg : ErrCfg) (t : Table) (o : OrderData)
    (items : List Item) (oid ns : String) (f : Option String)
    (h : cfg.getFails = true ∨ cfg.updateFails = true) :
    (append_order cfg t o items).1 = t ∧
    (update_status cfg t oid ns).1 = t ∧
    (cfg.getFails = true → (get_orders cfg t f).1 = []) ∧
    (append_order cfg t o items).2.countP isGet ≤ 1 ∧
    (append_order cfg t o items).2.countP isUpd ≤ 1 ∧
    (update_status cfg t oid ns).2.countP isGet ≤ 1 ∧
    (update_status cfg t oid ns).2.countP isUpd ≤ 1 ∧
    (get_orders cfg t f).2.countP isGet ≤ 1 ∧
    (get_orders cfg t f).2.countP isUpd = 0 := by
  obtain ⟨g, u⟩ := cfg
  cases g with
  | false =>
      cases u with
      | false => rcases h with h | h <;> simp at h
      | true =>
          have hr := runUpdates_updateFails t
            (collectUpdates oid ns 1 (t.map (fun r => r.take 20)))
          refine ⟨?_, ?_, ?_, ?_, ?_, ?_, ?_, ?_, ?_⟩ <;>
            simp [append_order, update_status, get_orders, valuesGet,
              valuesUpdate, readRange, isGet, isUpd, List.countP_cons,
              hr.1, hr.2.1, hr.2.2]
  | true =>
      cases u <;>
        refine ⟨?_, ?_, ?_, ?_, ?_, ?_, ?_, ?_, ?_⟩ <;>
          simp [append_order, update_status, get_orders, valuesGet,
            valuesUpdate, readRange, isGet, isUpd, List.countP_cons]

/-- Witness for C8: a store whose reads fail leaves the table alone and
reads back no orders. -/
theorem claim_c8_store_failures_witness :
    (append_order ⟨true, true⟩ [["r"]] sampleOrder [sampleItem]).1 = [["r"]] ∧
    (update_status ⟨true, true⟩ [["r"]] "A" "n").1 = [["r"]] ∧
    (get_orders ⟨true, true⟩ [["r"]] none).1 = [] := by
  have h := claim_c8_store_failures ⟨true, true⟩ [["r"]] sampleOrder
    [sampleItem] "A" "n" none (Or.inl rfl)
  exact ⟨h.1, h.2.1, h.2.2.1 rfl⟩

/-! ## Aggregation lemmas for the read path -/

theorem aggregate_cond (r : Row) :
    (r.isEmpty || decide (r.length < 2)) = decide (r.length < 2) := by
  cases r <;> simp

theorem aggregate_cons (f : Option String) (r : Row) (rs : List Row)
    (acc : List OrderAgg) :
    aggregate f (r :: rs) acc =
      if r.length < 2 then aggregate f rs acc
      else if filterSkips f (r.getD 1 "") then aggregate f rs acc
      else aggregate f rs (insertRow acc r) := by
  simp [aggregate, aggregate_cond]

theorem pushItem_map_id (oid : String) (it : ItemAgg) (acc : List OrderAgg) :
    (pushItem oid it acc).map (fun o => o.id) = acc.map (fun o => o.id) := by
  unfold pushItem
  rw [List.map_map]
  apply List.map_congr_left
  intro o _
  by_cases h : o.id = oid <;> simp [h]

theorem insertRow_map_id (acc : List OrderAgg) (row : Row) :
    (insertRow acc row).map (fun o => o.id) =
      if hasOrder acc (row.getD 0 "") then acc.map (fun o => o.id)
      else acc.map (fun o => o.id) ++ [row.getD 0 ""] := by
  simp only [insertRow]
  by_cases h : hasOrder acc (row.getD 0 "") = true
  · rw [if_pos h, if_pos h, pushItem_map_id]
  · rw [if_neg h, if_neg h, pushItem_map_id]
    simp [mkOrderAgg]

theorem hasOrder_iff (acc : List OrderAgg) (oid : String) :
    hasOrder acc oid = true ↔ oid ∈ acc.map (fun o => o.id) := by
  rw [hasOrder, List.any_eq_true]
  constructor
  · rintro ⟨o, ho, heq⟩
    exact List.mem_map.mpr ⟨o, ho, by simpa using heq⟩
  · intro hm
    rcases List.mem_map.mp hm with ⟨o, ho, rfl⟩
    exact ⟨o, ho, by simp⟩

theorem mem_insertRow_ids (acc : List OrderAgg) (row : Row) (oid : String) :
    oid ∈ (insertRow acc row).map (fun o => o.id) ↔
      oid ∈ acc.map (fun o => o.id) ∨ oid = row.getD 0 "" := by
  rw [insertRow_map_id]
  by_cases h : hasOrder acc (row.getD 0 "") = true
  · rw [if_pos h]
    constructor
    · exact Or.inl
    · rintro (hm | rfl)
      · exact hm
      · exact (hasOrder_iff _ _).mp h
  · rw [if_neg h]
    simp [List.mem_append]

theorem aggregate_mem_ids (f : Option String) (rows : List Row) :
    ∀ (acc : List OrderAgg) (oid : String),
      oid ∈ (aggregate f rows acc).map (fun o => o.id) ↔
        oid ∈ acc.map (fun o => o.id) ∨
        ∃ row ∈ rows, 2 ≤ row.length ∧
          filterSkips f (row.getD 1 "") = false ∧ row.getD 0 "" = oid := by
  induction rows with
  | nil => intro acc oid; simp [aggregate]
  | cons r rs ih =>
      intro acc oid
      rw [aggregate_cons]
      by_cases h2 : r.length < 2
      · rw [if_pos h2, ih]
        constructor
        · rintro (h | ⟨row, hm, hx⟩)
          · exact Or.inl h
          · exact Or.inr ⟨row, List.mem_cons_of_mem _ hm, hx⟩
        · rintro (h | ⟨row, hm, hx⟩)
          · exact Or.inl h
          · rcases List.mem_cons.mp hm with rfl | hm
            · exact absurd hx.1 (by omega)
            · exact Or.inr ⟨row, hm, hx⟩
      · rw [if_neg h2]
        by_cases hf : filterSkips f (r.getD 1 "") = true
        · rw [if_pos hf, ih]
          constructor
          · rintro (h | ⟨row, hm, hx⟩)
            · exact Or.inl h
            · exact Or.inr ⟨row, List.mem_cons_of_mem _ hm, hx⟩
          · rintro (h | ⟨row, hm, hx⟩)
            · exact Or.inl h
            · rcases List.mem_cons.mp hm with rfl | hm
              · rw [hf] at hx; exact absurd hx.2.1 (by simp)
              · exact Or.inr ⟨row, hm, hx⟩
        · rw [if_neg hf, ih, mem_insertRow_ids]
          constructor
          · rintro ((h | rfl) | ⟨row, hm, hx⟩)
            · exact Or.inl h
            · exact Or.inr ⟨r, List.mem_cons_self _ _,
                by omega, Bool.eq_false_iff.mpr hf, rfl⟩
            · exact Or.inr ⟨row, List.mem_cons_of_mem _ hm, hx⟩
          · rintro (h | ⟨row, hm, hx⟩)
            · exact Or.inl (Or.inl h)
            · rcases List.mem_cons.mp hm with rfl | hm
              · exact Or.inl (Or.inr hx.2.2.symm)
              · exact Or.inr ⟨row, hm, hx⟩

theorem aggregate_nodup_ids (f : Option String) (rows : List Row) :
    ∀ acc : List OrderAgg, (acc.map (fun o => o.id)).Nodup →
      ((aggregate f rows acc).map (fun o => o.id)).Nodup := by
  induction rows with
  | nil => intro acc h; simpa [aggregate] using h
  | cons r rs ih =>
      intro acc h
      rw [aggregate_cons]
      by_cases h2 : r.length < 2
      · rw [if_pos h2]; exact ih acc h
      · rw [if_neg h2]
        by_cases hf : filterSkips f (r.getD 1 "") = true
        · rw [if_pos hf]; exact ih acc h
        · rw [if_neg hf]
          apply ih
          rw [insertRow_map_id]
          by_cases hh : hasOrder acc (r.getD 0 "") = true
          · rw [if_pos hh]; exact h
          · rw [if_neg hh]
            have hnm : r.getD 0 "" ∉ acc.map (fun o => o.id) := by
              intro hc
              exact hh ((hasOrder_iff _ _).mpr hc)
            rw [List.nodup_append]
            refine ⟨h, by simp, ?_⟩
            intro a ha hb
            have hab : a = r.getD 0 "" := by simpa using hb
            subst hab
            exact hnm ha

theorem mem_pushItem (oid : String) (it : ItemAgg) (acc : List OrderAgg)
    (o : OrderAgg) (h : o ∈ pushItem oid it acc) :
    ∃ b ∈ acc, o.id = b.id ∧ o.status = b.status := by
  rcases List.mem_map.mp h with ⟨b, hb, rfl⟩
  refine ⟨b, hb, ?_, ?_⟩ <;>
    by_cases hid : (b.id == oid) = true <;> simp [hid]

theorem mem_insertRow (acc : List OrderAgg) (r : Row) (o : OrderAgg)
    (h : o ∈ insertRow acc r) :
    (∃ b ∈ acc, o.id = b.id ∧ o.status = b.status) ∨
    (o.id = r.getD 0 "" ∧ o.status = r.getD 1 "") := by
  simp only [insertRow] at h
  by_cases hh : hasOrder acc (r.getD 0 "") = true
  · rw [if_pos hh] at h
    exact Or.inl (mem_pushItem _ _ _ _ h)
  · rw [if_neg hh] at h
    rcases mem_pushItem _ _ _ _ h with ⟨b, hb, hid, hst⟩
    rcases List.mem_append.mp hb with hb | hb
    · exact Or.inl ⟨b, hb, hid, hst⟩
    · have hb : b = mkOrderAgg r := by simpa using hb
      subst hb
      exact Or.inr ⟨hid, hst⟩

theorem aggregate_status_mem (f : Option String) (rows : List Row) :
    ∀ (acc : List OrderAgg) (o : OrderAgg), o ∈ aggregate f rows acc →
      (∃ b ∈ acc, b.id = o.id ∧ b.status = o.status) ∨
      ∃ row ∈ rows, 2 ≤ row.length ∧
        filterSkips f (row.getD 1 "") = false ∧
        row.getD 0 "" = o.id ∧ row.getD 1 "" = o.status := by
  induction rows with
  | nil =>
      intro acc o h
      exact Or.inl ⟨o, by simpa [aggregate] using h, rfl, rfl⟩
  | cons r rs ih =>
      intro acc o h
      rw [aggregate_cons] at h
      by_cases h2 : r.length < 2
      · rw [if_pos h2] at h
        rcases ih acc o h with hl | ⟨row, hm, hx⟩
        · exact Or.inl hl
        · exact Or.inr ⟨row, List.mem_cons_of_mem _ hm, hx⟩
      · rw [if_neg h2] at h
        by_cases hf : filterSkips f (r.getD 1 "") = true
        · rw [if_pos hf] at h
          rcases ih acc o h with hl | ⟨row, hm, hx⟩
          · exact Or.inl hl
          · exact Or.inr ⟨row, List.mem_cons_of_mem _ hm, hx⟩
        · rw [if_neg hf] at h
          rcases ih _ o h with hl | ⟨row, hm, hx⟩
          · rcases hl with ⟨b, hb, hid, hst⟩
            rcases mem_insertRow acc r b hb with ⟨c, hc, hcid, hcst⟩ | ⟨hbid, hbst⟩
            · exact Or.inl ⟨c, hc, by rw [← hcid, hid], by rw [← hcst, hst]⟩
            · exact Or.inr ⟨r, List.mem_cons_self _ _, by omega,
                Bool.eq_false_iff.mpr hf, by rw [← hbid, hid],
                by rw [← hbst, hst]⟩
          · exact Or.inr ⟨row, List.mem_cons_of_mem _ hm, hx⟩

/-! ## C4 and C9: the read path at the get_orders level -/

theorem take20_getD (r : Row) (i : Nat) (h : i < 20) :
    (r.take 20).getD i "" = r.getD i "" := by
  rw [List.getD_eq_getElem?_getD, List.getD_eq_getElem?_getD,
    List.getElem?_take_of_lt h]

theorem take20_length2 (r : Row) : 2 ≤ (r.take 20).length ↔ 2 ≤ r.length := by
  rw [List.length_take]
  omega

theorem get_orders_noErr (t : Table) (f : Option String) :
    (get_orders noErr t f).1 = aggregate f (t.map (fun r => r.take 20)) [] := by
  simp [get_orders, valuesGet, noErr, readRange]

theorem get_orders_mem_ids (t : Table) (f : Option String) (oid : String) :
    oid ∈ (get_orders noErr t f).1.map (fun o => o.id) ↔
      ∃ r ∈ t, 2 ≤ r.length ∧ filterSkips f (r.getD 1 "") = false ∧
        r.getD 0 "" = oid := by
  rw [get_orders_noErr, aggregate_mem_ids]
  simp only [List.map_nil, List.not_mem_nil, false_or]
  constructor
  · rintro ⟨row, hm, h2, hf, hid⟩
    rcases List.mem_map.mp hm with ⟨r, hr, rfl⟩
    exact ⟨r, hr, (take20_length2 r).mp h2,
      by rwa [take20_getD r 1 (by omega)] at hf,
      by rwa [take20_getD r 0 (by omega)] at hid⟩
  · rintro ⟨r, hr, h2, hf, hid⟩
    exact ⟨r.take 20, List.mem_map_of_mem _ hr, (take20_length2 r).mpr h2,
      by rwa [take20_getD r 1 (by omega)],
      by rwa [take20_getD r 0 (by omega)]⟩

theorem get_orders_status_mem (t : Table) (f : Option String) (o : OrderAgg)
    (ho : o ∈ (get_orders noErr t f).1) :
    ∃ r ∈ t, 2 ≤ r.length ∧ filterSkips f (r.getD 1 "") = false ∧
      r.getD 0 "" = o.id ∧ r.getD 1 "" = o.status := by
  rw [get_orders_noErr] at ho
  rcases aggregate_status_mem f _ [] o ho with ⟨b, hb, -⟩ | ⟨row, hm, h2, hf, hx⟩
  · exact absurd hb (List.not_mem_nil b)
  · rcases List.mem_map.mp hm with ⟨r, hr, rfl⟩
    obtain ⟨hx1, hx2⟩ := hx
    exact ⟨r, hr, (take20_length2 r).mp h2,
      by rwa [take20_getD r 1 (by omega)] at hf,
      by rwa [take20_getD r 0 (by omega)] at hx1,
      by rwa [take20_getD r 1 (by omega)] at hx2⟩

theorem get_orders_nodup_ids (t : Table) (f : Option String) :
    ((get_orders noErr t f).1.map (fun o => o.id)).Nodup := by
  rw [get_orders_noErr]
  exact aggregate_nodup_ids f _ [] (by simp)

/-- The first row of the table (in table order) that has at least two
cells and carries the given order identifier. -/
def firstRow (t : Table) (oid : String) : Option Row :=
  t.find? (fun r => 2 ≤ r.length && r.getD 0 "" == oid)

/-- All rows of the table that share an identifier carry the same status
cell — the invariant `update_status` is documented to preserve. -/
def consistent (t : Table) : Prop :=
  ∀ r₁ ∈ t, ∀ r₂ ∈ t, 2 ≤ r₁.length → 2 ≤ r₂.length →
    r₁.getD 0 "" = r₂.getD 0 "" → r₁.getD 1 "" = r₂.getD 1 ""

instance (t : Table) : Decidable (consistent t) := by
  unfold consistent
  infer_instance

theorem filterSkips_false_iff (s st : String) (hs : s ≠ "") :
    filterSkips (some s) st = false ↔ st = s := by
  simp [filterSkips, hs, bne]

/-- C4 counterexample: on the two-row table [["X","a"], ["X","b"]] with
filter "b", the order "X" is returned even though its first-seen row has
status "a" ≠ "b" (the code filters rows before aggregating, so the
returned status is that of the first row passing the filter, not of the
first-seen row); moreover an identifier present only on a one-cell row
("Z") yields no record in the unfiltered read. -/
theorem claim_c4_counterexample :
    (get_orders noErr [["X", "a"], ["X", "b"]] (some "b")).1.map
        (fun o => o.id) = ["X"] ∧
    firstRow [["X", "a"], ["X", "b"]] "X" = some ["X", "a"] ∧
    (["X", "a"] : Row).getD 1 "" ≠ "b" ∧
    (get_orders noErr [["Z"]] none).1.map (fun o => o.id) = [] := by
  refine ⟨?_, ?_, ?_, ?_⟩ <;> decide

/-- C4 (amended): provided every pair of rows sharing an identifier
carries the same status (the documented invariant), `get_orders` with a
non-empty filter returns exactly the orders whose first-seen row has the
filter status, reporting that status; without a filter it returns one
record per distinct identifier present on a row with at least two
cells. -/
theorem claim_c4_read_filter (t : Table) (s : String) :
    (s ≠ "" → consistent t →
      (∀ o ∈ (get_orders noErr t (some s)).1,
        o.status = s ∧ ∃ r, firstRow t o.id = some r ∧ r.getD 1 "" = s) ∧
      (∀ oid r, firstRow t oid = some r → r.getD 1 "" = s →
        oid ∈ (get_orders noErr t (some s)).1.map (fun o => o.id))) ∧
    ((get_orders noErr t none).1.map (fun o => o.id)).Nodup ∧
    (∀ oid, oid ∈ (get_orders noErr t none).1.map (fun o => o.id) ↔
      ∃ r ∈ t, 2 ≤ r.length ∧ r.getD 0 "" = oid) := by
  refine ⟨?_, get_orders_nodup_ids t none, ?_⟩
  · intro hs hcons
    constructor
    · intro o ho
      rcases get_orders_status_mem t (some s) o ho with
        ⟨r, hr, h2, hf, hid, hstat⟩
      have hsts : r.getD 1 "" = s := (filterSkips_false_iff _ _ hs).mp hf
      refine ⟨by rw [← hstat, hsts], ?_⟩
      have hex : (firstRow t o.id).isSome := by
        rw [firstRow, List.find?_isSome]
        refine ⟨r, hr, ?_⟩
        rw [Bool.and_eq_true]
        exact ⟨by simpa using h2, by simpa using hid⟩
      rcases Option.isSome_iff_exists.mp hex with ⟨r0, hr0⟩
      have hr0mem := List.mem_of_find?_eq_some hr0
      have hr0p := List.find?_some hr0
      have h02 : 2 ≤ r0.length := by
        have := (Bool.and_eq_true _ _).mp hr0p
        simpa using this.1
      have h0id : r0.getD 0 "" = o.id := by
        have := (Bool.and_eq_true _ _).mp hr0p
        simpa using this.2
      refine ⟨r0, hr0, ?_⟩
      rw [hcons r0 hr0mem r hr h02 h2 (by rw [h0id, hid]), hsts]
    · intro oid r hfr hst
      have hrmem := List.mem_of_find?_eq_some hfr
      have hrp := List.find?_some hfr
      have h2 : 2 ≤ r.length := by
        have := (Bool.and_eq_true _ _).mp hrp
        simpa using this.1
      have hid : r.getD 0 "" = oid := by
        have := (Bool.and_eq_true _ _).mp hrp
        simpa using this.2
      rw [get_orders_mem_ids]
      exact ⟨r, hrmem, h2, (filterSkips_false_iff _ _ hs).mpr hst, hid⟩
  · intro oid
    rw [get_orders_mem_ids]
    constructor
    · rintro ⟨r, hr, h2, -, hid⟩
      exact ⟨r, hr, h2, hid⟩
    · rintro ⟨r, hr, h2, hid⟩
      exact ⟨r, hr, h2, rfl, hid⟩

/-- Witness for the amended C4 on a concrete consistent table. -/
theorem claim_c4_read_filter_witness :
    "X" ∈ (get_orders noErr [["X", "b", "d"], ["X", "b"], ["Y", "a"]]
      (some "b")).1.map (fun o => o.id) := by
  have h := (claim_c4_read_filter [["X", "b", "d"], ["X", "b"], ["Y", "a"]]
    "b").1 (by decide) (by decide)
  exact h.2 "X" ["X", "b", "d"] (by decide) (by decide)

theorem padTo_getD (r : Row) (n i : Nat) : (padTo r n).getD i "" = r.getD i "" := by
  rw [padTo, List.getD_eq_getElem?_getD, List.getD_eq_getElem?_getD]
  rcases Nat.lt_or_ge i r.length with h | h
  · rw [List.getElem?_append_left h]
  · rw [List.getElem?_append_right h, List.getElem?_eq_none h,
      List.getElem?_replicate]
    split <;> rfl

theorem insertRow_padTo (acc : List OrderAgg) (row : Row) :
    insertRow acc (padTo row 20) = insertRow acc row := by
  simp only [insertRow, mkItemAgg, mkOrderAgg, padTo_getD]

/-- C9 counterexample: the row ["", "s"] has an empty identifier cell yet
is not skipped — it contributes an order record (under the empty-string
identifier) with one item. -/
theorem claim_c9_counterexample :
    (get_orders noErr [["", "s"]] none).1 =
      [{ id := "", status := "s", date := "", customer_name := ""
         items := [{ sku := "", quantity := "", order_sum := ""
                     purchase_sum := "", supplier := "" }] }] := by
  decide

/-- C9 (amended): during read aggregation a row with fewer than two cells
(in particular an empty row) is skipped entirely — it contributes to no
order and no item list — and a row with at least two cells is processed
exactly as its padding to the 20-column layout with empty strings, so a
short row never causes an out-of-range access. -/
theorem claim_c9_short_rows (f : Option String) (row : Row) (rest : List Row)
    (acc : List OrderAgg) :
    (row.length < 2 → aggregate f (row :: rest) acc = aggregate f rest acc) ∧
    (2 ≤ row.length →
      aggregate f (row :: rest) acc = aggregate f (padTo row 20 :: rest) acc) := by
  constructor
  · intro h
    rw [aggregate_cons, if_pos h]
  · intro h2
    rw [aggregate_cons, aggregate_cons]
    have hl : ¬(padTo row 20).length < 2 := by
      rw [padTo, List.length_append, List.length_replicate]
      omega
    have hr : ¬row.length < 2 := by omega
    rw [if_neg hl, if_neg hr, padTo_getD, insertRow_padTo]

/-- Witness for the amended C9: a one-cell row is dropped, a two-cell row
aggregates exactly like its 20-column padding. -/
theorem claim_c9_short_rows_witness :
    aggregate none [["x"]] [] = aggregate none [] [] ∧
    aggregate none [["a", "b"]] [] =
      aggregate none [padTo ["a", "b"] 20] [] := by
  exact ⟨(claim_c9_short_rows none ["x"] [] []).1 (by decide),
    (claim_c9_short_rows none ["a", "b"] [] []).2 (by decide)⟩

/-! ## C1 and C5: the status-change endpoint -/

theorem pickerTransitions_eq_iff (cur ns : String) :
    pickerTransitions cur = some ns ↔
      ((cur = "оформлен" ∧ ns = "ожидает поставки") ∨
       (cur = "ожидает поставки" ∧ ns = "сборка")) := by
  unfold pickerTransitions
  by_cases h1 : cur = "оформлен"
  · rw [if_pos h1]
    constructor
    · intro h
      injection h with h
      exact Or.inl ⟨h1, h.symm⟩
    · rintro (⟨-, rfl⟩ | ⟨h2, -⟩)
      · rfl
      · exact absurd (h1.symm.trans h2) (by decide)
  · rw [if_neg h1]
    by_cases h2 : cur = "ожидает поставки"
    · rw [if_pos h2]
      constructor
      · intro h
        injection h with h
        exact Or.inr ⟨h2, h.symm⟩
      · rintro (⟨hc, -⟩ | ⟨-, rfl⟩)
        · exact absurd hc h1
        · rfl
    · rw [if_neg h2]
      constructor
      · intro h
        exact absurd h (by simp)
      · rintro (⟨hc, -⟩ | ⟨hc, -⟩)
        · exact absurd hc h1
        · exact absurd hc h2

theorem courierTransitions_eq_iff (cur ns : String) :
    courierTransitions cur = some ns ↔
      ((cur = "сборка" ∧ ns = "доставка") ∨
       (cur = "доставка" ∧ ns = "завершён")) := by
  unfold courierTransitions
  by_cases h1 : cur = "сборка"
  · rw [if_pos h1]
    constructor
    · intro h
      injection h with h
      exact Or.inl ⟨h1, h.symm⟩
    · rintro (⟨-, rfl⟩ | ⟨h2, -⟩)
      · rfl
      · exact absurd (h1.symm.trans h2) (by decide)
  · rw [if_neg h1]
    by_cases h2 : cur = "доставка"
    · rw [if_pos h2]
      constructor
      · intro h
        injection h with h
        exact Or.inr ⟨h2, h.symm⟩
      · rintro (⟨hc, -⟩ | ⟨-, rfl⟩)
        · exact absurd hc h1
        · rfl
    · rw [if_neg h2]
      constructor
      · intro h
        exact absurd h (by simp)
      · rintro (⟨hc, -⟩ | ⟨hc, -⟩)
        · exact absurd hc h1
        · exact absurd hc h2

theorem set_status_bad_role (m : RoleMap) (t : Table) (uid : Option String)
    (oid ns : String)
    (h : ¬(roleOf m uid = some "picker" ∨ roleOf m uid = some "courier" ∨
      roleOf m uid = some "admin")) :
    set_status m noErr t uid oid ns = (.forbidden, t) := by
  simp only [set_status]
  rw [if_neg h]

theorem set_status_admin (m : RoleMap) (t : Table) (uid : Option String)
    (oid ns : String) (hrole : roleOf m uid = some "admin") :
    set_status m noErr t uid oid ns =
      (.redirectOrders ns, (update_status noErr t oid ns).1) := by
  simp only [set_status]
  rw [if_pos (Or.inr (Or.inr hrole)), if_pos hrole]

theorem set_status_notfound (m : RoleMap) (t : Table) (uid : Option String)
    (oid ns : String)
    (hcond : roleOf m uid = some "picker" ∨ roleOf m uid = some "courier" ∨
      roleOf m uid = some "admin")
    (hna : ¬roleOf m uid = some "admin")
    (hfind : (get_orders noErr t none).1.find? (fun x => x.id == oid) = none) :
    set_status m noErr t uid oid ns = (.notFound, t) := by
  simp only [set_status]
  rw [if_pos hcond, if_neg hna, hfind]

theorem set_status_found (m : RoleMap) (t : Table) (uid : Option String)
    (oid ns r : String) (hrole : roleOf m uid = some r)
    (hna : ¬roleOf m uid = some "admin")
    (hcond : roleOf m uid = some "picker" ∨ roleOf m uid = some "courier" ∨
      roleOf m uid = some "admin")
    (o : OrderAgg)
    (hfind : (get_orders noErr t none).1.find? (fun x => x.id == oid) = some o) :
    set_status m noErr t uid oid ns =
      if roleTransitions r o.status = some ns then
        (.redirectOrders ns, (update_status noErr t oid ns).1)
      else (.forbidden, t) := by
  simp only [set_status]
  rw [if_pos hcond, if_neg hna, hfind, hrole]

/-- C1: for every non-admin role, a status change succeeds exactly when
the (role, current status, target) triple is an entry of the fixed
transition table (picker: "оформлен" to "ожидает поставки", "ожидает
поставки" to "сборка"; courier: "сборка" to "доставка", "доставка" to
"завершён"); a role outside {picker, courier, admin} gets Forbidden, an
identifier on no (two-cell) row gets NotFound, any other triple gets
Forbidden, and success redirects to the listing of the new status with
the update applied. -/
theorem claim_c1_nonadmin_transitions (m : RoleMap) (t : Table)
    (uid : Option String) (oid ns : String)
    (hna : ¬roleOf m uid = some "admin") :
    (¬roleOf m uid = some "picker" → ¬roleOf m uid = some "courier" →
      set_status m noErr t uid oid ns = (.forbidden, t)) ∧
    ((roleOf m uid = some "picker" ∨ roleOf m uid = some "courier") →
      ((∀ r ∈ t, ¬(2 ≤ r.length ∧ r.getD 0 "" = oid)) →
        set_status m noErr t uid oid ns = (.notFound, t)) ∧
      (∀ o, (get_orders noErr t none).1.find? (fun x => x.id == oid) = some o →
        (roleOf m uid = some "picker" →
          (((o.status = "оформлен" ∧ ns = "ожидает поставки") ∨
            (o.status = "ожидает поставки" ∧ ns = "сборка")) →
            set_status m noErr t uid oid ns =
              (.redirectOrders ns, (update_status noErr t oid ns).1)) ∧
          (¬((o.status = "оформлен" ∧ ns = "ожидает поставки") ∨
             (o.status = "ожидает поставки" ∧ ns = "сборка")) →
            set_status m noErr t uid oid ns = (.forbidden, t))) ∧
        (roleOf m uid = some "courier" →
          (((o.status = "сборка" ∧ ns = "доставка") ∨
            (o.status = "доставка" ∧ ns = "завершён")) →
            set_status m noErr t uid oid ns =
              (.redirectOrders ns, (update_status noErr t oid ns).1)) ∧
          (¬((o.status = "сборка" ∧ ns = "доставка") ∨
             (o.status = "доставка" ∧ ns = "завершён")) →
            set_status m noErr t uid oid ns = (.forbidden, t))))) := by
  constructor
  · intro hp hc
    apply set_status_bad_role
    rintro (h | h | h)
    · exact hp h
    · exact hc h
    · exact hna h
  · intro hrole
    have hcond : roleOf m uid = some "picker" ∨ roleOf m uid = some "courier" ∨
        roleOf m uid = some "admin" := by
      rcases hrole with h | h
      · exact Or.inl h
      · exact Or.inr (Or.inl h)
    constructor
    · intro hnorow
      apply set_status_notfound m t uid oid ns hcond hna
      rw [List.find?_eq_none]
      intro x hx hbeq
      have hxid : x.id = oid := by simpa using hbeq
      have hmem : oid ∈ (get_orders noErr t none).1.map (fun o => o.id) :=
        List.mem_map.mpr ⟨x, hx, hxid⟩
      rcases (get_orders_mem_ids t none oid).mp hmem with ⟨r, hr, h2, -, hid⟩
      exact hnorow r hr ⟨h2, hid⟩
    · intro o hfind
      constructor
      · intro hp
        have hred := set_status_found m t uid oid ns "picker" hp hna hcond o hfind
        have htr : roleTransitions "picker" o.status = pickerTransitions o.status := by
          simp [roleTransitions]
        constructor
        · intro htrip
          rw [hred, htr, if_pos ((pickerTransitions_eq_iff o.status ns).mpr htrip)]
        · intro htrip
          rw [hred, htr, if_neg (fun hc =>
            htrip ((pickerTransitions_eq_iff o.status ns).mp hc))]
      · intro hc
        have hred := set_status_found m t uid oid ns "courier" hc hna hcond o hfind
        have htr : roleTransitions "courier" o.status =
            courierTransitions o.status := by
          simp [roleTransitions]
        constructor
        · intro htrip
          rw [hred, htr, if_pos ((courierTransitions_eq_iff o.status ns).mpr htrip)]
        · intro htrip
          rw [hred, htr, if_neg (fun hcc =>
            htrip ((courierTransitions_eq_iff o.status ns).mp hcc))]

/-- Witness for C1: a picker moves an order from "оформлен" to "ожидает
поставки". -/
theorem claim_c1_nonadmin_transitions_witness :
    set_status [("1", "picker")] noErr [["7", "оформлен"]] (some "1") "7"
        "ожидает поставки" =
      (.redirectOrders "ожидает поставки",
        (update_status noErr [["7", "оформлен"]] "7" "ожидает поставки").1) := by
  have h := claim_c1_nonadmin_transitions [("1", "picker")] [["7", "оформлен"]]
    (some "1") "7" "ожидает поставки" (by decide)
  have hfind : (get_orders noErr [["7", "оформлен"]] none).1.find?
      (fun x => x.id == "7") =
      some { id := "7", status := "оформлен", date := "", customer_name := ""
             items := [{ sku := "", quantity := "", order_sum := ""
                         purchase_sum := "", supplier := "" }] } := by decide
  exact (((h.2 (Or.inl (by decide))).2 _ hfind).1 (by decide)).1
    (Or.inl ⟨rfl, rfl⟩)

/-- C5: an admin status change succeeds unconditionally for any existing
order and any target status: the current status is never consulted, the
update is applied and the response redirects to the listing for the
target status. -/
theorem claim_c5_admin_unconditional (m : RoleMap) (t : Table)
    (uid : Option String) (oid ns : String)
    (hrole : roleOf m uid = some "admin")
    (hex : ∃ r ∈ t, 2 ≤ r.length ∧ r.getD 0 "" = oid) :
    set_status m noErr t uid oid ns =
      (.redirectOrders ns, (update_status noErr t oid ns).1) := by
  exact set_status_admin m t uid oid ns hrole

/-- Witness for C5: the configured admin uid moves an order straight to
"завершён". -/
theorem claim_c5_admin_unconditional_witness :
    set_status ROLE_MAP noErr [["5", "оформлен"]] (some "379185153") "5"
        "завершён" =
      (.redirectOrders "завершён",
        (update_status noErr [["5", "оформлен"]] "5" "завершён").1) := by
  exact claim_c5_admin_unconditional ROLE_MAP [["5", "оформлен"]]
    (some "379185153") "5" "завершён" (by decide)
    ⟨["5", "оформлен"], by decide⟩

/-! ## C6, C7 and C10: the order-creation endpoint -/

/-- C6: a creation submission (POST) by any identity whose role is not
manager or admin — including the unassigned role — yields Forbidden and
appends nothing to the store. -/
theorem claim_c6_create_forbidden (m : RoleMap) (cfg : ErrCfg) (t : Table)
    (uid : Option String) (form : Form) (fuel : Nat) (nowTs nowDate : String)
    (h : ¬(roleOf m uid = some "manager" ∨ roleOf m uid = some "admin")) :
    new_order m cfg t uid .post form fuel nowTs nowDate = (.forbidden, t) := by
  simp only [new_order]
  rw [if_neg h]

/-- Witness for C6: an identity with no role entry is refused and the
table is untouched. -/
theorem claim_c6_create_forbidden_witness :
    new_order ROLE_MAP noErr [["r"]] none .post (fun _ => none) 3 "1" "d" =
      (.forbidden, [["r"]]) := by
  exact claim_c6_create_forbidden ROLE_MAP noErr [["r"]] none (fun _ => none)
    3 "1" "d" (by decide)

/-- C10: the Forbidden check of the creation endpoint runs before the
request method is examined — a GET for the form by a role outside
{manager, admin} returns 403 exactly like a POST. -/
theorem claim_c10_get_forbidden (m : RoleMap) (cfg : ErrCfg) (t : Table)
    (uid : Option String) (form : Form) (fuel : Nat) (nowTs nowDate : String)
    (h : ¬(roleOf m uid = some "manager" ∨ roleOf m uid = some "admin")) :
    new_order m cfg t uid .get form fuel nowTs nowDate = (.forbidden, t) ∧
    new_order m cfg t uid .get form fuel nowTs nowDate =
      new_order m cfg t uid .post form fuel nowTs nowDate := by
  constructor
  · simp only [new_order]
    rw [if_neg h]
  · simp only [new_order]
    rw [if_neg h, if_neg h]

/-- Witness for C10: a roleless GET of the creation form is 403. -/
theorem claim_c10_get_forbidden_witness :
    new_order ROLE_MAP noErr [] (some "2") .get (fun _ => none) 3 "1" "d" =
      (.forbidden, []) := by
  exact (claim_c10_get_forbidden ROLE_MAP noErr [] (some "2") (fun _ => none)
    3 "1" "d" (by decide)).1

theorem parseItems_spec (f : Form) :
    ∀ (k fuel j : Nat),
      (∀ i, i < k → ∃ s, f (itemKey (j + i) "sku") = some s ∧ s ≠ "") →
      (f (itemKey (j + k) "sku") = none ∨ f (itemKey (j + k) "sku") = some "") →
      k < fuel →
      parseItems f fuel j =
        (List.range k).map (fun i =>
          itemAt f (j + i) ((f (itemKey (j + i) "sku")).getD "")) := by
  intro k
  induction k with
  | zero =>
      intro fuel j _ hstop hfuel
      match fuel with
      | fuel + 1 =>
          rw [parseItems]
          rcases hstop with hstop | hstop <;> rw [Nat.add_zero] at hstop <;>
            rw [hstop] <;> simp
  | succ k ih =>
      intro fuel j hbefore hstop hfuel
      match fuel with
      | fuel + 1 =>
          rcases hbefore 0 (by omega) with ⟨s, hs, hsne⟩
          rw [Nat.add_zero] at hs
          rw [parseItems, hs]
          show (if s = "" then [] else itemAt f j s :: parseItems f fuel (j + 1)) = _
          rw [if_neg hsne]
          have htail := ih fuel (j + 1)
            (fun i hi => by
              rcases hbefore (i + 1) (by omega) with ⟨s2, hs2, hs2ne⟩
              exact ⟨s2, by rwa [show j + (i + 1) = j + 1 + i by omega] at hs2,
                hs2ne⟩)
            (by rwa [show j + 1 + k = j + (k + 1) by omega])
            (by omega)
          rw [htail, List.range_succ_eq_map, List.map_cons, List.map_map]
          congr 1
          · rw [Nat.add_zero, hs]
            simp
          · apply List.map_congr_left
            intro i _
            simp only [Function.comp]
            rw [show j + 1 + i = j + (i + 1) by omega]

/-- C7: the item loop collects items at consecutive indices 0, 1, ... and
stops at the first index whose SKU field is absent or empty, capturing
exactly the items before that index. -/
theorem claim_c7_item_termination (form : Form) (n fuel : Nat)
    (hbefore : ∀ i, i < n → ∃ s, form (itemKey i "sku") = some s ∧ s ≠ "")
    (hstop : form (itemKey n "sku") = none ∨ form (itemKey n "sku") = some "")
    (hfuel : n < fuel) :
    parseItems form fuel 0 =
      (List.range n).map (fun i =>
        itemAt form i ((form (itemKey i "sku")).getD "")) := by
  have h := parseItems_spec form n fuel 0
    (fun i hi => by simpa using hbefore i hi)
    (by simpa using hstop) hfuel
  simpa using h

/-- A form carrying SKU fields for item_0 and item_2 but not item_1. -/
def gapForm : Form := fun k =>
  if k = "item_0_sku" then some "A"
  else if k = "item_2_sku" then some "C"
  else none

/-- Witness for C7: with item_0 and item_2 present but item_1 missing,
exactly one item (item_0) is captured. -/
theorem claim_c7_item_termination_witness :
    parseItems gapForm 5 0 = [itemAt gapForm 0 "A"] := by
  have h := claim_c7_item_termination gapForm 1 5
    (fun i hi => by
      have hi0 : i = 0 := by omega
      subst hi0
      exact ⟨"A", by decide, by decide⟩)
    (Or.inl (by decide)) (by decide)
  rw [h]
  rfl

end AgentCrm
